import Mathlib

/-!
Shallow embedding of `cargo-when` (src/main.rs): a conditional command gate
that probes `rustc -V`, evaluates channel / version-range / env-existence /
env-equality predicates, and conditionally dispatches a wrapped `cargo`
subcommand.  Side effects (process spawning, stderr printing, process exit)
are made explicit: spawn results are inputs, and the program's observable
outcome (probe attempted, usage printed, spawned command, exit code) is the
output of `mainModel`.
-/

namespace CargoWhen

/-- Is an `Except` value an error? -/
def isErr {ε α : Type} : Except ε α → Bool
  | .error _ => true
  | .ok _ => false

/-- Digits-to-number accumulation for a list of ASCII digit characters. -/
def digitsToNat (l : List Char) : Nat :=
  l.foldl (fun a c => 10 * a + (c.toNat - 48)) 0

/-- Split a character list at the first occurrence of `sep`
(models Rust `splitn(2, sep)`): returns the part before the separator and,
when the separator occurs, the remainder after it. -/
def splitFirstGo (sep : Char) (acc : List Char) : List Char → List Char × Option (List Char)
  | [] => (acc.reverse, none)
  | c :: rest =>
    if c = sep then (acc.reverse, some rest)
    else splitFirstGo sep (c :: acc) rest

/-- Split a character list at every occurrence of `sep` (models Rust
`str::split(sep)` / comma- and dot-separated lists): adjacent separators
and separators at the ends yield empty chunks. -/
def splitOnCharGo (sep : Char) (acc : List Char) : List Char → List (List Char)
  | [] => [acc.reverse]
  | c :: rest =>
    if c = sep then acc.reverse :: splitOnCharGo sep [] rest
    else splitOnCharGo sep (c :: acc) rest

/-- Split a string at every occurrence of a separator character. -/
def splitOnChar (sep : Char) (s : String) : List String :=
  (splitOnCharGo sep [] s.toList).map String.mk

/-! ## UTF-8 lossy decoding

`RustCInfo::get_info` converts the raw stdout bytes of `rustc -V` with
`String::from_utf8_lossy`, which replaces each invalid byte sequence with
U+FFFD instead of failing.  We model the byte stream as `List Nat` and the
decoder with explicit fuel (one unit per byte, so fuel = input length always
suffices). -/

/-- The Unicode replacement character U+FFFD. -/
def replacementChar : Char := Char.ofNat 0xFFFD

/-- Is a byte a UTF-8 continuation byte (`0x80..0xBF`)? -/
def isContByte (b : Nat) : Bool := 0x80 ≤ b && b ≤ 0xBF

/-- Fuel-indexed UTF-8 decoder with U+FFFD substitution for invalid
sequences, following the validation ranges of standard UTF-8 (overlong and
surrogate encodings are invalid). -/
def utf8LossyGo : Nat → List Nat → List Char
  | 0, _ => []
  | _ + 1, [] => []
  | fuel + 1, b :: rest =>
    if b < 0x80 then
      Char.ofNat b :: utf8LossyGo fuel rest
    else if 0xC2 ≤ b && b ≤ 0xDF then
      match rest with
      | b1 :: rest1 =>
        if isContByte b1 then
          Char.ofNat ((b - 0xC0) * 0x40 + (b1 - 0x80)) :: utf8LossyGo fuel rest1
        else replacementChar :: utf8LossyGo fuel rest
      | [] => [replacementChar]
    else if 0xE0 ≤ b && b ≤ 0xEF then
      match rest with
      | b1 :: rest1 =>
        let firstContOk :=
          if b = 0xE0 then 0xA0 ≤ b1 && b1 ≤ 0xBF
          else if b = 0xED then 0x80 ≤ b1 && b1 ≤ 0x9F
          else isContByte b1
        if firstContOk then
          match rest1 with
          | b2 :: rest2 =>
            if isContByte b2 then
              Char.ofNat ((b - 0xE0) * 0x1000 + (b1 - 0x80) * 0x40 + (b2 - 0x80)) ::
                utf8LossyGo fuel rest2
            else replacementChar :: utf8LossyGo fuel rest1
          | [] => [replacementChar]
        else replacementChar :: utf8LossyGo fuel rest
      | [] => [replacementChar]
    else if 0xF0 ≤ b && b ≤ 0xF4 then
      match rest with
      | b1 :: rest1 =>
        let firstContOk :=
          if b = 0xF0 then 0x90 ≤ b1 && b1 ≤ 0xBF
          else if b = 0xF4 then 0x80 ≤ b1 && b1 ≤ 0x8F
          else isContByte b1
        if firstContOk then
          match rest1 with
          | b2 :: rest2 =>
            if isContByte b2 then
              match rest2 with
              | b3 :: rest3 =>
                if isContByte b3 then
                  Char.ofNat ((b - 0xF0) * 0x40000 + (b1 - 0x80) * 0x1000 +
                      (b2 - 0x80) * 0x40 + (b3 - 0x80)) :: utf8LossyGo fuel rest3
                else replacementChar :: utf8LossyGo fuel rest2
              | [] => [replacementChar]
            else replacementChar :: utf8LossyGo fuel rest1
          | [] => [replacementChar]
        else replacementChar :: utf8LossyGo fuel rest
      | [] => [replacementChar]
    else
      replacementChar :: utf8LossyGo fuel rest

/-- Lossy UTF-8 decoding of a byte list, as performed by
`String::from_utf8_lossy` on the probe's stdout. -/
def utf8Lossy (bytes : List Nat) : String :=
  String.mk (utf8LossyGo bytes.length bytes)

/-- Fuel-indexed UTF-8 validity check, mirroring the ranges accepted by
`utf8LossyGo` without substitution. -/
def utf8ValidGo : Nat → List Nat → Bool
  | 0, l => l.isEmpty
  | _ + 1, [] => true
  | fuel + 1, b :: rest =>
    if b < 0x80 then utf8ValidGo fuel rest
    else if 0xC2 ≤ b && b ≤ 0xDF then
      match rest with
      | b1 :: rest1 => isContByte b1 && utf8ValidGo fuel rest1
      | [] => false
    else if 0xE0 ≤ b && b ≤ 0xEF then
      match rest with
      | b1 :: b2 :: rest2 =>
        (if b = 0xE0 then 0xA0 ≤ b1 && b1 ≤ 0xBF
         else if b = 0xED then 0x80 ≤ b1 && b1 ≤ 0x9F
         else isContByte b1) && isContByte b2 && utf8ValidGo fuel rest2
      | _ => false
    else if 0xF0 ≤ b && b ≤ 0xF4 then
      match rest with
      | b1 :: b2 :: b3 :: rest3 =>
        (if b = 0xF0 then 0x90 ≤ b1 && b1 ≤ 0xBF
         else if b = 0xF4 then 0x80 ≤ b1 && b1 ≤ 0x8F
         else isContByte b1) && isContByte b2 && isContByte b3 && utf8ValidGo fuel rest3
      | _ => false
    else false

/-- Is a byte list valid UTF-8? -/
def utf8Valid (bytes : List Nat) : Bool :=
  utf8ValidGo bytes.length bytes

/-- ASCII encoding of a string as a byte list (valid on ASCII input);
used to write concrete probe outputs. -/
def strBytes (s : String) : List Nat :=
  s.toList.map Char.toNat

/-! ## Whitespace splitting

Rust's `str::split_whitespace` splits on Unicode `White_Space` characters and
discards empty substrings. -/

/-- The Unicode `White_Space` property, as used by Rust's
`char::is_whitespace`. -/
def rustIsWhitespace (c : Char) : Bool :=
  let n := c.toNat
  (0x09 ≤ n && n ≤ 0x0D) || n = 0x20 || n = 0x85 || n = 0xA0 || n = 0x1680 ||
    (0x2000 ≤ n && n ≤ 0x200A) || n = 0x2028 || n = 0x2029 || n = 0x202F ||
    n = 0x205F || n = 0x3000

/-- Fuel-indexed whitespace splitter (fuel = list length suffices). -/
def splitWsGo : Nat → List Char → List (List Char)
  | 0, _ => []
  | _ + 1, [] => []
  | fuel + 1, c :: rest =>
    if rustIsWhitespace c then splitWsGo fuel rest
    else
      (c :: rest).takeWhile (fun x => !rustIsWhitespace x) ::
        splitWsGo fuel ((c :: rest).dropWhile (fun x => !rustIsWhitespace x))

/-- Rust's `str::split_whitespace`: maximal runs of non-whitespace. -/
def splitWhitespace (s : String) : List String :=
  (splitWsGo s.toList.length s.toList).map String.mk

/-! ## Semantic versions (the `semver` crate, pre-1.0)

`main.rs` uses `semver::Version`, `semver::VersionReq` and
`semver::Identifier`.  These are dependencies, embedded here following the
pre-1.0 `semver` crate's grammar and matching rules as used by the source. -/

/-- A pre-release or build identifier (`semver::Identifier`). -/
inductive Identifier
  | numeric (n : Nat)
  | alphaNumeric (s : String)
deriving DecidableEq

/-- A parsed semantic version (`semver::Version`). -/
structure Version where
  major : Nat
  minor : Nat
  patch : Nat
  pre : List Identifier
  build : List Identifier
deriving DecidableEq

/-- Is a character allowed inside a pre-release/build identifier? -/
def isIdentChar (c : Char) : Bool :=
  c.isDigit || c.isAlpha || c = '-'

/-- Parse one dot-separated identifier chunk: all-digit chunks are numeric,
other alphanumeric-and-hyphen chunks are textual. -/
def parseIdent (s : String) : Except String Identifier :=
  let cs := s.toList
  if cs.isEmpty then .error "Error parsing version: empty identifier"
  else if cs.all isIdentChar then
    if cs.all Char.isDigit then .ok (.numeric (digitsToNat cs))
    else .ok (.alphaNumeric s)
  else .error "Error parsing version: invalid identifier character"

/-- Parse a dot-separated identifier list (pre-release or build portion). -/
def parseIdentList (s : String) : Except String (List Identifier) :=
  (splitOnChar '.' s).mapM parseIdent

/-- Parse one numeric version component (non-empty, all digits). -/
def parseNumPart (s : String) : Except String Nat :=
  let cs := s.toList
  if cs.isEmpty then .error "Error parsing version: expected number"
  else if cs.all Char.isDigit then .ok (digitsToNat cs)
  else .error "Error parsing version: expected numeric component"

/-- `semver::Version::parse`: `major.minor.patch` with optional `-pre` and
`+build` identifier lists. -/
def Version.parse (s : String) : Except String Version := do
  let (beforePlus, buildPart) := splitFirstGo '+' [] s.toList
  let (core, prePart) := splitFirstGo '-' [] beforePlus
  match splitOnChar '.' (String.mk core) with
  | [ma, mi, pa] =>
    let major ← parseNumPart ma
    let minor ← parseNumPart mi
    let patch ← parseNumPart pa
    let pre ← match prePart with
      | none => pure []
      | some p => parseIdentList (String.mk p)
    let build ← match buildPart with
      | none => pure []
      | some b => parseIdentList (String.mk b)
    pure { major := major, minor := minor, patch := patch, pre := pre, build := build }
  | _ => .error "Error parsing version: expected three numeric components"

/-- Strict ordering on identifiers: numeric sorts below textual, numerics
compare by value, textuals lexicographically. -/
def Identifier.ltB : Identifier → Identifier → Bool
  | .numeric a, .numeric b => decide (a < b)
  | .numeric _, .alphaNumeric _ => true
  | .alphaNumeric _, .numeric _ => false
  | .alphaNumeric a, .alphaNumeric b => decide (a < b)

/-- Lexicographic strict ordering on identifier lists (a proper prefix sorts
below its extensions). -/
def preLtB : List Identifier → List Identifier → Bool
  | [], [] => false
  | [], _ :: _ => true
  | _ :: _, [] => false
  | a :: as, b :: bs => a.ltB b || (decide (a = b) && preLtB as bs)

/-- Non-strict ordering on identifier lists. -/
def preLeB (a b : List Identifier) : Bool :=
  decide (a = b) || preLtB a b

/-! ## Version requirements (`semver::VersionReq`)

A requirement string is a comma-separated list of predicates, each with an
optional comparison operator (`=`, `>`, `>=`, `<`, `<=`, `~`, `^`; the
default is compatible/caret), a possibly-partial version, and optional
wildcard components (`*`, `x`, `X`). -/

/-- Which component of a predicate is a wildcard. -/
inductive WildcardPosition
  | major
  | minor
  | patch
deriving DecidableEq

/-- A predicate's comparison operator. -/
inductive ReqOp
  | ex
  | gt
  | gtEq
  | lt
  | ltEq
  | tilde
  | compatible
  | wildcard (pos : WildcardPosition)
deriving DecidableEq

/-- One predicate of a version requirement. -/
structure Predicate where
  op : ReqOp
  major : Nat
  minor : Option Nat
  patch : Option Nat
  pre : List Identifier
deriving DecidableEq

/-- A parsed version requirement (`semver::VersionReq`). -/
structure VersionReq where
  predicates : List Predicate
deriving DecidableEq

/-- Recognize an explicit comparison operator at the head of a predicate. -/
def parseReqOp : List Char → Option ReqOp × List Char
  | '=' :: r => (some .ex, r)
  | '>' :: '=' :: r => (some .gtEq, r)
  | '>' :: r => (some .gt, r)
  | '<' :: '=' :: r => (some .ltEq, r)
  | '<' :: r => (some .lt, r)
  | '~' :: r => (some .tilde, r)
  | '^' :: r => (some .compatible, r)
  | cs => (none, cs)

/-- A wildcard component character. -/
def wildcardChar (c : Char) : Bool :=
  c = '*' || c = 'x' || c = 'X'

/-- Drop spaces at both ends of a character list. -/
def trimSpaces (cs : List Char) : List Char :=
  ((cs.dropWhile (· = ' ')).reverse.dropWhile (· = ' ')).reverse

/-- Parse what follows `major.minor.patch` in a predicate: nothing, a
pre-release list, and/or a build list (build identifiers are validated but
not retained by a predicate). -/
def parsePredTail (cs : List Char) : Except String (List Identifier) :=
  match cs with
  | [] => .ok []
  | '-' :: r =>
    let (preCs, buildCs) := splitFirstGo '+' [] r
    do
      let pre ← parseIdentList (String.mk preCs)
      match buildCs with
      | none => pure pre
      | some b => do
        let _ ← parseIdentList (String.mk b)
        pure pre
  | '+' :: r => do
    let _ ← parseIdentList (String.mk r)
    pure []
  | _ => .error "Error parsing version requirement: unexpected character"

/-- Parse one comma-separated predicate of a requirement string. -/
def parsePredicate (t : String) : Except String Predicate :=
  let cs := trimSpaces t.toList
  let (opOpt, cs1) := parseReqOp cs
  let cs2 := cs1.dropWhile (· = ' ')
  match cs2 with
  | [] => .error "Error parsing version requirement: expected version"
  | c :: rest =>
    if wildcardChar c then
      if rest.isEmpty then .ok ⟨.wildcard .major, 0, none, none, []⟩
      else .error "Error parsing version requirement: unexpected character after wildcard"
    else
      let (ds, r1) := cs2.span Char.isDigit
      if ds.isEmpty then .error "Error parsing version requirement: expected number"
      else
        let major := digitsToNat ds
        match r1 with
        | [] => .ok ⟨opOpt.getD .compatible, major, none, none, []⟩
        | '.' :: r2 =>
          match r2 with
          | [] => .error "Error parsing version requirement: expected component"
          | c2 :: rest2 =>
            if wildcardChar c2 then
              if rest2.isEmpty then .ok ⟨.wildcard .minor, major, none, none, []⟩
              else .error "Error parsing version requirement: unexpected character after wildcard"
            else
              let (ds2, r3) := r2.span Char.isDigit
              if ds2.isEmpty then .error "Error parsing version requirement: expected number"
              else
                let minor := digitsToNat ds2
                match r3 with
                | [] => .ok ⟨opOpt.getD .compatible, major, some minor, none, []⟩
                | '.' :: r4 =>
                  match r4 with
                  | [] => .error "Error parsing version requirement: expected component"
                  | c3 :: rest3 =>
                    if wildcardChar c3 then
                      if rest3.isEmpty then
                        .ok ⟨.wildcard .patch, major, some minor, none, []⟩
                      else .error "Error parsing version requirement: unexpected character after wildcard"
                    else
                      let (ds3, r5) := r4.span Char.isDigit
                      if ds3.isEmpty then
                        .error "Error parsing version requirement: expected number"
                      else
                        match parsePredTail r5 with
                        | .error e => .error e
                        | .ok pre =>
                          .ok ⟨opOpt.getD .compatible, major, some minor,
                            some (digitsToNat ds3), pre⟩
                | _ => .error "Error parsing version requirement: unexpected character"
        | _ => .error "Error parsing version requirement: unexpected character"

/-- `semver::VersionReq::parse`: comma-separated predicates, all of which
must parse. -/
def VersionReq.parse (s : String) : Except String VersionReq := do
  let preds ← (splitOnChar ',' s).mapM parsePredicate
  pure ⟨preds⟩

/-- Pre-release compatibility within an otherwise-equal version triple. -/
def preIsCompatible (p : Predicate) (v : Version) : Bool :=
  v.pre.isEmpty || preLeB v.pre p.pre

/-- Exact-match test of a predicate (unspecified components match
anything). -/
def Predicate.isExactMatch (p : Predicate) (v : Version) : Bool :=
  if p.major ≠ v.major then false else
  match p.minor with
  | none => true
  | some m =>
    if m ≠ v.minor then false else
    match p.patch with
    | none => true
    | some pa =>
      if pa ≠ v.patch then false else decide (p.pre = v.pre)

/-- Greater-than test of a predicate. -/
def Predicate.isGreaterMatch (p : Predicate) (v : Version) : Bool :=
  if p.major ≠ v.major then decide (v.major > p.major) else
  match p.minor with
  | none => false
  | some m =>
    if m ≠ v.minor then decide (v.minor > m) else
    match p.patch with
    | none => false
    | some pa =>
      if pa ≠ v.patch then decide (v.patch > pa) else
      if !p.pre.isEmpty then v.pre.isEmpty || preLtB p.pre v.pre
      else false

/-- Tilde-range test (`~`): patch-level flexibility when patch is given,
minor-level otherwise. -/
def Predicate.matchesTilde (p : Predicate) (v : Version) : Bool :=
  match p.minor with
  | none => decide (p.major = v.major)
  | some m =>
    match p.patch with
    | none => decide (p.major = v.major ∧ m = v.minor)
    | some pa =>
      decide (p.major = v.major ∧ m = v.minor) &&
        (decide (v.patch > pa) || (decide (v.patch = pa) && preIsCompatible p v))

/-- Caret-range test (`^`, also the default operator): compatible within the
leftmost non-zero component. -/
def Predicate.isCompatibleMatch (p : Predicate) (v : Version) : Bool :=
  if p.major ≠ v.major then false else
  match p.minor with
  | none => true
  | some m =>
    match p.patch with
    | none => if p.major = 0 then decide (v.minor = m) else decide (v.minor ≥ m)
    | some pa =>
      if p.major = 0 then
        if m = 0 then
          decide (v.minor = m) && decide (v.patch = pa) && preIsCompatible p v
        else
          decide (v.minor = m) &&
            (decide (v.patch > pa) || (decide (v.patch = pa) && preIsCompatible p v))
      else
        decide (v.minor > m) ||
          (decide (v.minor = m) &&
            (decide (v.patch > pa) || (decide (v.patch = pa) && preIsCompatible p v)))

/-- Wildcard test: the wildcarded component is unconstrained. -/
def Predicate.matchesWildcard (p : Predicate) (v : Version) : Bool :=
  match p.op with
  | .wildcard .major => true
  | .wildcard .minor => decide (p.major = v.major)
  | .wildcard .patch => decide (p.major = v.major) && decide (p.minor = some v.minor)
  | _ => false

/-- Does one predicate accept a version? -/
def Predicate.matchesVer (p : Predicate) (v : Version) : Bool :=
  match p.op with
  | .ex => p.isExactMatch v
  | .gt => p.isGreaterMatch v
  | .gtEq => p.isExactMatch v || p.isGreaterMatch v
  | .lt => !p.isExactMatch v && !p.isGreaterMatch v
  | .ltEq => !p.isGreaterMatch v
  | .tilde => p.matchesTilde v
  | .compatible => p.isCompatibleMatch v
  | .wildcard _ => p.matchesWildcard v

/-- `semver::VersionReq::matches`: all comma-separated predicates must
accept the version. -/
def VersionReq.matches (r : VersionReq) (v : Version) : Bool :=
  r.predicates.all (fun p => p.matchesVer v)

/-! ## `RustCInfo` (compiler probe and matchers)

`RustCInfo::get_info` spawns `rustc -V`; the spawn result is an input here:
`none` models an I/O error from `Command::output()` (the `expect` panics and
the process aborts), `some bytes` models captured stdout.  An `Except.error`
result models the process aborting via `expect` with the given panic
message. -/

/-- Information on the rustc compiler version (`struct RustCInfo`). -/
structure RustCInfo where
  channel : String
  version : Version
deriving DecidableEq

/-- Extract and parse the version token from the probe's stdout: lossy
UTF-8 decode, split on whitespace, take the second token, parse it. -/
def rustcVersionOfOutput (stdout : List Nat) : Except String Version :=
  match (splitWhitespace (utf8Lossy stdout)).get? 1 with
  | none => .error "Failed to get rustc version string"
  | some verstr =>
    match Version.parse verstr with
    | .error _ => .error "Failed to parse rustc version"
    | .ok v => .ok v

/-- Channel derivation from the first pre-release identifier
(`RustCInfo::get_info`): textual identifier is taken literally, numeric
yields "unknown", absence yields "stable". -/
def channelOfVersion (v : Version) : String :=
  match v.pre.head? with
  | some (.alphaNumeric s) => s
  | some (.numeric _) => "unknown"
  | none => "stable"

/-- Strip pre-release and build metadata, keeping `major.minor.patch`
(`RustCInfo::get_info`'s second `Version` construction). -/
def stripVersion (v : Version) : Version :=
  ⟨v.major, v.minor, v.patch, [], []⟩

/-- `RustCInfo::get_info`: probe `rustc -V` and build the `RustCInfo`;
errors are the `expect` panic messages of the source. -/
def RustCInfo.getInfo (spawnResult : Option (List Nat)) : Except String RustCInfo :=
  match spawnResult with
  | none => .error "Failed to get rustc version"
  | some stdout =>
    match rustcVersionOfOutput stdout with
    | .error e => .error e
    | .ok version => .ok ⟨channelOfVersion version, stripVersion version⟩

/-- ASCII lowercasing; Rust's `str::to_lowercase` restricted to the ASCII
fragment, which covers the channel names admitted by the CLI
(`stable`, `beta`, `nightly`). -/
def rustToLowercase (s : String) : String :=
  String.mk (s.toList.map Char.toLower)

/-- `RustCInfo::matches_channel`: the stored channel compared with the
lowercased candidate. -/
def RustCInfo.matchesChannel (info : RustCInfo) (channel : String) : Bool :=
  info.channel = rustToLowercase channel

/-- `RustCInfo::matches_version`: parse the requirement and match it against
the stored (stripped) version. -/
def RustCInfo.matchesVersion (info : RustCInfo) (version : String) : Except String Bool :=
  match VersionReq.parse version with
  | .error e => .error e
  | .ok versreq => .ok (versreq.matches info.version)

/-- `RustCInfo::matches_any_channels`: vacuously true when the option was
absent, otherwise true if any candidate matches. -/
def RustCInfo.matchesAnyChannels (info : RustCInfo) : Option (List String) → Bool
  | none => true
  | some channels => channels.any (fun ch => info.matchesChannel ch)

/-- The loop body of `RustCInfo::matches_any_versions`: requirements are
parsed in order and the loop returns early on the first match, so strings
after the first matching one are never parsed. -/
def matchesAnyVersionsGo (info : RustCInfo) : List String → Except String Bool
  | [] => .ok false
  | v :: rest =>
    match info.matchesVersion v with
    | .error e => .error e
    | .ok true => .ok true
    | .ok false => matchesAnyVersionsGo info rest

/-- `RustCInfo::matches_any_versions`: vacuously true when the option was
absent. -/
def RustCInfo.matchesAnyVersions (info : RustCInfo) : Option (List String) → Except String Bool
  | none => .ok true
  | some vers => matchesAnyVersionsGo info vers

/-! ## Environment-variable matchers

The process environment is modelled as an immutable snapshot
`String → Option String` (`env::var_os` lookups). -/

/-- An environment snapshot. -/
def EnvMap : Type := String → Option String

/-- A parsed environment variable requirement (`struct EnvVarReq`). -/
structure EnvVarReq where
  name : String
  value : String
deriving DecidableEq

/-- `var.splitn(2, '=')` on a string: the part before the first `=` and,
when present, everything after it (which may itself contain `=`). -/
def splitn2Eq (s : String) : String × Option String :=
  match splitFirstGo '=' [] s.toList with
  | (name, none) => (String.mk name, none)
  | (name, some value) => (String.mk name, some (String.mk value))

/-- `EnvVarReq::parse`: split at the first `=`; an empty name or a missing
`=` is an error. -/
def EnvVarReq.parse (var : String) : Except String EnvVarReq :=
  let (name, rest) := splitn2Eq var
  if name = "" then .error "Invalid environment variable name"
  else
    match rest with
    | none =>
      .error ("Invalid environment variable requirement, expecting: " ++ name ++ "=VALUE")
    | some value => .ok ⟨name, value⟩

/-- `EnvVarReq::matches`: the named variable is set and its raw value equals
the required value exactly. -/
def EnvVarReq.matchesEnv (req : EnvVarReq) (env : EnvMap) : Bool :=
  match env req.name with
  | none => false
  | some v => v = req.value

/-- `any_env_vars_exist`: vacuously true when the option was absent,
otherwise true if any named variable is set (value ignored). -/
def anyEnvVarsExist (env : EnvMap) : Option (List String) → Bool
  | none => true
  | some vars => vars.any (fun v => (env v).isSome)

/-- The loop body of `matches_any_env_vars`: requirements are parsed in
order with an early return on the first match. -/
def matchesAnyEnvVarsGo (env : EnvMap) : List String → Except String Bool
  | [] => .ok false
  | var :: rest =>
    match EnvVarReq.parse var with
    | .error e => .error e
    | .ok req => if req.matchesEnv env then .ok true else matchesAnyEnvVarsGo env rest

/-- `matches_any_env_vars`: vacuously true when the option was absent. -/
def matchesAnyEnvVars (env : EnvMap) : Option (List String) → Except String Bool
  | none => .ok true
  | some vars => matchesAnyEnvVarsGo env vars

/-! ## The CLI-level model (`options_match`, `get_cargo_command`, `main`)

An `Invocation` holds what clap delivers to `main` for the selected
subcommand mode: the four optional candidate lists and the optional
external (trailing) subcommand with its arguments.  A `World` holds the
outcomes of the two possible child-process interactions.  The observable
result records whether the rustc probe was attempted, whether usage text
was printed, which command (if any) was spawned, and the final exit code. -/

/-- The two subcommand modes. -/
inductive Mode
  | whenMode
  | unlessMode
deriving DecidableEq

/-- The parsed command line for the selected mode. -/
structure Invocation where
  mode : Mode
  channels : Option (List String)
  versions : Option (List String)
  envExists : Option (List String)
  envEquals : Option (List String)
  external : Option (String × List String)

/-- External interactions: the environment snapshot, the result of spawning
`rustc -V` (`none` = spawn failure, otherwise captured stdout bytes), and
the result of spawning `cargo` (`Except.error` = spawn failure,
`Except.ok (some c)` = exited with code `c`, `Except.ok none` = terminated
without an exit code). -/
structure World where
  env : EnvMap
  rustcOut : Option (List Nat)
  cargoStatus : Except Unit (Option Nat)

/-- Observable outcome of a completed run. -/
structure Outcome where
  probedRustc : Bool
  printedUsage : Bool
  spawned : Option (String × List String)
  exitCode : Nat
deriving DecidableEq

/-- Result of a run: either the process aborted via an `expect` panic, or it
finished with an observable outcome. -/
inductive ProcResult
  | panicked (msg : String)
  | finished (o : Outcome)
deriving DecidableEq

/-- The tail of `main`: spawn `cargo` with the assembled argument vector
when a command was produced, and map the child's status to the parent's
exit code (`s.code().unwrap_or(127)` on unsuccessful termination, `127` on
spawn failure, fall-through exit `0` on success). -/
def runCommand (cmd : Option (List String)) (status : Except Unit (Option Nat)) :
    Option (String × List String) × Nat :=
  match cmd with
  | none => (none, 0)
  | some args =>
    match status with
    | .error _ => (some ("cargo", args), 127)
    | .ok st =>
      if st = some 0 then (some ("cargo", args), 0)
      else (some ("cargo", args), st.getD 127)

/-- Whether a run attempted to spawn the wrapped command. -/
def ProcResult.spawns : ProcResult → Bool
  | .panicked _ => false
  | .finished o => o.spawned.isSome

/-- The final conjunction of `options_match`: all four matcher results must
hold (`matches_any_channels && vers && any_env_vars_exist && env`). -/
def conditionsMatch (inv : Invocation) (w : World) (info : RustCInfo)
    (envMatched versMatched : Bool) : Bool :=
  info.matchesAnyChannels inv.channels && versMatched &&
    anyEnvVarsExist w.env inv.envExists && envMatched

/-- The mode-dependent use of the single boolean in `main`: the `when` arm
dispatches on `options_match`, the `unless` arm on its negation. -/
def dispatchDecision (mode : Mode) (conditions : Bool) : Bool :=
  match mode with
  | .whenMode => conditions
  | .unlessMode => !conditions

/-- The whole program: `options_match` (rustc probe first, then the
env-equality and version matchers with their exit-1-and-usage error paths,
then the conjunction of the four matchers), mode-dependent negation,
`get_cargo_command` (usage error when no trailing subcommand was given),
and the dispatch tail. -/
def mainModel (inv : Invocation) (w : World) : ProcResult :=
  match RustCInfo.getInfo w.rustcOut with
  | .error msg => .panicked msg
  | .ok info =>
    match matchesAnyEnvVars w.env inv.envEquals with
    | .error _ => .finished ⟨true, true, none, 1⟩
    | .ok envMatched =>
      match info.matchesAnyVersions inv.versions with
      | .error _ => .finished ⟨true, true, none, 1⟩
      | .ok versMatched =>
        if dispatchDecision inv.mode (conditionsMatch inv w info envMatched versMatched) then
          match inv.external with
          | none => .finished ⟨true, true, none, 1⟩
          | some (ext, extArgs) =>
            let res := runCommand (some (ext :: extArgs)) w.cargoStatus
            .finished ⟨true, false, res.1, res.2⟩
        else
          let res := runCommand none w.cargoStatus
          .finished ⟨true, false, res.1, res.2⟩

/-- Case-insensitive string equality.  Modelled from the spec: the spec's
"case-insensitively equals" relation for channel comparison, used to compare
the channel matcher against the spec's description. -/
def caseInsensitiveEq (a b : String) : Bool :=
  rustToLowercase a = rustToLowercase b

/-! ## Helper lemmas -/

/-- Whatever the child status, dispatching a command spawns `cargo` with
exactly that argument vector. -/
theorem runCommand_some_fst (args : List String) (status : Except Unit (Option Nat)) :
    (runCommand (some args) status).1 = some ("cargo", args) := by
  rcases status with _ | st
  · rfl
  · rcases st with _ | c
    · rfl
    · by_cases h : c = 0 <;> simp [runCommand, h]

/-- Skipping spawns nothing and exits 0, whatever the hypothetical child
status. -/
theorem runCommand_none (status : Except Unit (Option Nat)) :
    runCommand none status = (none, 0) := rfl

/-- A requirement matches the environment exactly when its variable is set
to exactly its value. -/
theorem matchesEnv_iff (req : EnvVarReq) (env : EnvMap) :
    req.matchesEnv env = true ↔ env req.name = some req.value := by
  unfold EnvVarReq.matchesEnv
  rcases h : env req.name with _ | v <;> simp [h]

/-- `splitFirstGo` finds the first separator: appended input before the
first occurrence is returned verbatim. -/
theorem splitFirstGo_append_sep (sep : Char) (acc pre post : List Char)
    (h : sep ∉ pre) :
    splitFirstGo sep acc (pre ++ sep :: post) = (acc.reverse ++ pre, some post) := by
  induction pre generalizing acc with
  | nil => simp [splitFirstGo]
  | cons c cs ih =>
    have hc : ¬c = sep := fun hcs => h (hcs ▸ List.mem_cons_self c cs)
    have hcs : sep ∉ cs := fun hm => h (List.mem_cons_of_mem c hm)
    simp [splitFirstGo, hc, ih _ hcs]

/-! ## Claims -/

/-- C3 counterexample: the channel matcher is not case-insensitive equality.
A probe output of `rustc 1.20.0-Nightly ...` stores the channel literally as
`Nightly`; the candidate `Nightly` is case-insensitively equal to it, yet
the matcher (which lowercases only the candidate) rejects it. -/
theorem c3_counterexample :
    RustCInfo.getInfo (some (strBytes "rustc 1.20.0-Nightly (abc 2017-05-05)"))
      = .ok ⟨"Nightly", ⟨1, 20, 0, [], []⟩⟩ ∧
    caseInsensitiveEq "Nightly" "Nightly" = true ∧
    RustCInfo.matchesAnyChannels ⟨"Nightly", ⟨1, 20, 0, [], []⟩⟩ (some ["Nightly"]) = false :=
  ⟨rfl, by decide, by decide⟩

/-- C3 (amended): the channel matcher returns true iff the stored probed
channel equals the lowercasing of at least one candidate (OR across
candidates) — which coincides with case-insensitive equality only when the
stored channel is already lowercase — and returns true vacuously when no
candidate list was supplied. -/
theorem c3_channel_matcher (info : RustCInfo) (channels : List String) :
    (RustCInfo.matchesAnyChannels info (some channels) = true ↔
      ∃ ch ∈ channels, info.channel = rustToLowercase ch) ∧
    RustCInfo.matchesAnyChannels info none = true := by
  refine ⟨?_, rfl⟩
  simp [RustCInfo.matchesAnyChannels, RustCInfo.matchesChannel, List.any_eq_true]

/-- C6: for every probe output whose second token parses as a version `v`,
the derived channel is `stable` when `v` has no pre-release component, the
literal text of the first pre-release component when it is alphanumeric,
and `unknown` when it is numeric. -/
theorem c6_channel_derivation (bytes : List Nat) (v : Version) (info : RustCInfo)
    (hv : rustcVersionOfOutput bytes = .ok v)
    (hinfo : RustCInfo.getInfo (some bytes) = .ok info) :
    (v.pre = [] → info.channel = "stable") ∧
    (∀ s tl, v.pre = .alphaNumeric s :: tl → info.channel = s) ∧
    (∀ n tl, v.pre = .numeric n :: tl → info.channel = "unknown") := by
  have hinfo' : info = ⟨channelOfVersion v, stripVersion v⟩ := by
    have h2 : RustCInfo.getInfo (some bytes) =
        (match rustcVersionOfOutput bytes with
          | .error e => .error e
          | .ok version => Except.ok ⟨channelOfVersion version, stripVersion version⟩) := rfl
    rw [h2, hv] at hinfo
    exact (Except.ok.inj hinfo).symm
  subst hinfo'
  refine ⟨fun h => ?_, fun s tl h => ?_, fun n tl h => ?_⟩ <;>
    simp [channelOfVersion, h]

/-- C6 witness: concrete probe outputs exercising all three channel
derivation cases. -/
theorem c6_witness :
    (⟨"stable", ⟨1, 74, 0, [], []⟩⟩ : RustCInfo).channel = "stable" ∧
    (⟨"nightly", ⟨1, 74, 0, [], []⟩⟩ : RustCInfo).channel = "nightly" ∧
    (⟨"unknown", ⟨1, 74, 0, [], []⟩⟩ : RustCInfo).channel = "unknown" := by
  refine ⟨?_, ?_, ?_⟩
  · exact (c6_channel_derivation (strBytes "rustc 1.74.0 (abc 2023-11-13)")
      ⟨1, 74, 0, [], []⟩ _ (by rfl) (by rfl)).1 rfl
  · exact (c6_channel_derivation (strBytes "rustc 1.74.0-nightly (abc 2023-11-13)")
      ⟨1, 74, 0, [.alphaNumeric "nightly"], []⟩ _ (by rfl) (by rfl)).2.1 "nightly" [] rfl
  · exact (c6_channel_derivation (strBytes "rustc 1.74.0-7 (abc 2023-11-13)")
      ⟨1, 74, 0, [.numeric 7], []⟩ _ (by rfl) (by rfl)).2.2 7 [] rfl

/-- C7: the stored version is the probed version stripped to
`major.minor.patch` with empty pre-release and build lists, and every
version-requirement match is evaluated against that stripped version. -/
theorem c7_version_stripping (bytes : List Nat) (v : Version) (info : RustCInfo)
    (hv : rustcVersionOfOutput bytes = .ok v)
    (hinfo : RustCInfo.getInfo (some bytes) = .ok info) :
    info.version = ⟨v.major, v.minor, v.patch, [], []⟩ ∧
    ∀ r req, VersionReq.parse r = .ok req →
      info.matchesVersion r = .ok (req.matches ⟨v.major, v.minor, v.patch, [], []⟩) := by
  have hinfo' : info = ⟨channelOfVersion v, stripVersion v⟩ := by
    have h2 : RustCInfo.getInfo (some bytes) =
        (match rustcVersionOfOutput bytes with
          | .error e => .error e
          | .ok version => Except.ok ⟨channelOfVersion version, stripVersion version⟩) := rfl
    rw [h2, hv] at hinfo
    exact (Except.ok.inj hinfo).symm
  subst hinfo'
  refine ⟨rfl, fun r req hr => ?_⟩
  unfold RustCInfo.matchesVersion
  rw [hr]
  exact rfl

/-- C7 witness: a nightly probe output; the stored version drops the
pre-release tag and `>=1.74.0` is matched against the stripped `1.74.0`. -/
theorem c7_witness :
    (⟨"nightly", ⟨1, 74, 0, [], []⟩⟩ : RustCInfo).version = ⟨1, 74, 0, [], []⟩ ∧
    (⟨"nightly", ⟨1, 74, 0, [], []⟩⟩ : RustCInfo).matchesVersion ">=1.74.0"
      = .ok (VersionReq.matches ⟨[⟨.gtEq, 1, some 74, some 0, []⟩]⟩ ⟨1, 74, 0, [], []⟩) := by
  have h := c7_version_stripping (strBytes "rustc 1.74.0-nightly (abc 2023-11-13)")
    ⟨1, 74, 0, [.alphaNumeric "nightly"], []⟩ ⟨"nightly", ⟨1, 74, 0, [], []⟩⟩
    (by rfl) (by rfl)
  exact ⟨h.1, h.2 ">=1.74.0" ⟨[⟨.gtEq, 1, some 74, some 0, []⟩]⟩ (by rfl)⟩

/-- C8: exit-code propagation of the dispatch tail.  A skip decision exits
`0` and spawns nothing; a run decision spawns `cargo`; a child exiting with
code `c` makes the parent exit `c`; a child terminating without an exit
code, or a spawn failure, makes the parent exit the sentinel `127`. -/
theorem c8_exit_code_propagation :
    (∀ status, runCommand none status = (none, 0)) ∧
    (∀ args c, runCommand (some args) (.ok (some c)) = (some ("cargo", args), c)) ∧
    (∀ args, runCommand (some args) (.ok none) = (some ("cargo", args), 127)) ∧
    (∀ args, runCommand (some args) (.error ()) = (some ("cargo", args), 127)) := by
  refine ⟨fun _ => rfl, fun args c => ?_, fun _ => rfl, fun _ => rfl⟩
  by_cases h : c = 0
  · subst h; rfl
  · simp [runCommand, h]

/-- C9: `name=value` requirement strings are split at the first `=` (the
value may itself contain `=`); with all strings well-formed, the equality
matcher returns true iff some requirement's variable is set to exactly its
required value (OR across requirements, exact comparison); it is vacuously
true when the option was absent. -/
theorem c9_env_equality :
    (∀ env, matchesAnyEnvVars env none = .ok true) ∧
    (∀ name value : String, name ≠ "" → '=' ∉ name.toList →
      EnvVarReq.parse (name ++ "=" ++ value) = .ok ⟨name, value⟩) ∧
    (∀ env vars, (∀ s ∈ vars, isErr (EnvVarReq.parse s) = false) →
      (matchesAnyEnvVars env (some vars) = .ok true ↔
        ∃ s ∈ vars, ∃ req, EnvVarReq.parse s = .ok req ∧ env req.name = some req.value)) := by
  refine ⟨fun _ => rfl, fun name value hne hnem => ?_, fun env vars hwf => ?_⟩
  · obtain ⟨ndata⟩ := name
    obtain ⟨vdata⟩ := value
    have htl : (String.mk ndata ++ "=" ++ String.mk vdata).toList =
        ndata ++ '=' :: vdata := by
      show (ndata ++ ['=']) ++ vdata = ndata ++ '=' :: vdata
      simp
    have hsplit : splitn2Eq (String.mk ndata ++ "=" ++ String.mk vdata) =
        (String.mk ndata, some (String.mk vdata)) := by
      unfold splitn2Eq
      rw [htl, splitFirstGo_append_sep '=' [] ndata vdata hnem]
      rfl
    unfold EnvVarReq.parse
    rw [hsplit]
    simp [hne]
  · show matchesAnyEnvVarsGo env vars = .ok true ↔ _
    induction vars with
    | nil => simp [matchesAnyEnvVarsGo]
    | cons var rest ih =>
      have hvar := hwf var (List.mem_cons_self var rest)
      have hrest : ∀ s ∈ rest, isErr (EnvVarReq.parse s) = false :=
        fun s hs => hwf s (List.mem_cons_of_mem var hs)
      rcases hp : EnvVarReq.parse var with e | req
      · rw [hp] at hvar; exact absurd hvar (by simp [isErr])
      · show (match EnvVarReq.parse var with
            | Except.error e => Except.error e
            | Except.ok req =>
              if req.matchesEnv env then Except.ok true else matchesAnyEnvVarsGo env rest)
            = Except.ok true ↔ _
        rw [hp]
        by_cases hm : req.matchesEnv env = true
        · simp only [hm, if_true]
          constructor
          · intro _
            exact ⟨var, List.mem_cons_self var rest, req, hp, (matchesEnv_iff req env).mp hm⟩
          · intro _; trivial
        · simp only [hm, if_false, Bool.false_eq_true]
          rw [ih hrest]
          constructor
          · rintro ⟨s, hs, req', hps, henv⟩
            exact ⟨s, List.mem_cons_of_mem var hs, req', hps, henv⟩
          · rintro ⟨s, hs, req', hps, henv⟩
            rcases List.mem_cons.mp hs with hseq | hs'
            · subst hseq
              rw [hp] at hps
              have : req = req' := Except.ok.inj hps
              subst this
              exact absurd ((matchesEnv_iff req env).mpr henv) hm
            · exact ⟨s, hs', req', hps, henv⟩

/-- C9 witness: vacuous truth, splitting at the first `=` with `=` inside
the value, and a concrete environment where the matcher's OR over two
requirements holds because the second one matches. -/
theorem c9_witness :
    matchesAnyEnvVars (fun _ => none) none = .ok true ∧
    EnvVarReq.parse ("FOO" ++ "=" ++ "b=r") = .ok ⟨"FOO", "b=r"⟩ ∧
    (matchesAnyEnvVars (fun n => if n = "FOO" then some "b=r" else none)
        (some ["X=1", "FOO=b=r"]) = .ok true ↔
      ∃ s ∈ ["X=1", "FOO=b=r"], ∃ req, EnvVarReq.parse s = .ok req ∧
        (fun n => if n = "FOO" then some "b=r" else none) req.name = some req.value) :=
  ⟨c9_env_equality.1 (fun _ => none),
    c9_env_equality.2.1 "FOO" "b=r" (by decide) (by decide),
    c9_env_equality.2.2 (fun n => if n = "FOO" then some "b=r" else none)
      ["X=1", "FOO=b=r"] (by
        intro s hs
        rcases List.mem_cons.mp hs with h | h
        · subst h; rfl
        · rw [List.mem_singleton] at h; subst h; rfl)⟩

/-- With every earlier requirement string parsing and evaluating to false,
the version loop reaches the unparsable string and propagates its parse
error. -/
theorem matchesAnyVersionsGo_error (info : RustCInfo) (earlier : List String)
    (bad : String) (later : List String)
    (hbad : isErr (VersionReq.parse bad) = true)
    (hearlier : ∀ v ∈ earlier, info.matchesVersion v = .ok false) :
    isErr (matchesAnyVersionsGo info (earlier ++ bad :: later)) = true := by
  induction earlier with
  | nil =>
    rcases hp : VersionReq.parse bad with e | req
    · have hmv : info.matchesVersion bad = .error e := by
        unfold RustCInfo.matchesVersion
        rw [hp]
      simp only [List.nil_append, matchesAnyVersionsGo, hmv]
      rfl
    · rw [hp] at hbad
      exact absurd hbad (by simp [isErr])
  | cons v vs ih =>
    have hv := hearlier v (List.mem_cons_self v vs)
    have hvs : ∀ x ∈ vs, info.matchesVersion x = .ok false :=
      fun x hx => hearlier x (List.mem_cons_of_mem v hx)
    simp only [List.cons_append, matchesAnyVersionsGo, hv]
    exact ih hvs

/-- C1 counterexample: a list whose second requirement string is unparsable
does not cause an exit-1 parse error when an earlier string already matches:
the loop returns true before ever parsing the malformed string, and the
wrapped command is dispatched with exit code 0 and no usage text. -/
theorem c1_counterexample :
    isErr (VersionReq.parse "not-a-range") = true ∧
    mainModel
      ⟨.whenMode, none, some ["^1.0", "not-a-range"], none, none, some ("build", [])⟩
      ⟨fun _ => none, some (strBytes "rustc 1.2.3 (abc 2017-05-05)"), .ok (some 0)⟩
      = .finished ⟨true, false, some ("cargo", ["build"]), 0⟩ := by
  refine ⟨by decide, by decide⟩

/-- C1 (amended): an unparsable requirement string aborts the run with a
diagnostic, usage text and exit status 1 (given a successful probe),
provided no string earlier in the list already matched; strings after the
first matching one are never parsed, so an unparsable string preceded by a
matching one raises no error. -/
theorem c1_unparsable_version_exits_1 (inv : Invocation) (w : World) (info : RustCInfo)
    (earlier : List String) (bad : String) (later : List String)
    (hprobe : RustCInfo.getInfo w.rustcOut = .ok info)
    (hvers : inv.versions = some (earlier ++ bad :: later))
    (hbad : isErr (VersionReq.parse bad) = true)
    (hearlier : ∀ v ∈ earlier, info.matchesVersion v = .ok false) :
    mainModel inv w = .finished ⟨true, true, none, 1⟩ := by
  have hgo := matchesAnyVersionsGo_error info earlier bad later hbad hearlier
  simp only [mainModel, hprobe]
  rcases henv : matchesAnyEnvVars w.env inv.envEquals with e | envM
  · rfl
  · have hmv : info.matchesAnyVersions inv.versions
        = matchesAnyVersionsGo info (earlier ++ bad :: later) := by
      rw [hvers]
      exact rfl
    rcases hgo' : matchesAnyVersionsGo info (earlier ++ bad :: later) with e2 | b
    · rw [hmv, hgo']
    · rw [hgo'] at hgo
      exact absurd hgo (by simp [isErr])

/-- C1 witness: a non-matching valid string, then an unparsable one, then a
valid one; the process exits 1 with usage text. -/
theorem c1_witness :
    mainModel
      ⟨.whenMode, none, some ["<0.5.0", "not-a-range", "^1.0"], none, none,
        some ("build", [])⟩
      ⟨fun _ => none, some (strBytes "rustc 1.2.3 (abc 2017-05-05)"), .ok (some 0)⟩
      = .finished ⟨true, true, none, 1⟩ :=
  c1_unparsable_version_exits_1 _ _ ⟨"stable", ⟨1, 2, 3, [], []⟩⟩
    ["<0.5.0"] "not-a-range" ["^1.0"] (by rfl) rfl (by rfl)
    (by intro v hv; rw [List.mem_singleton] at hv; subst hv; rfl)

/-- C2 counterexample: with an empty trailing argv, a probed stable
compiler and a non-matching channel predicate, the process exits 0 with no
usage text — and the probe did run — contradicting "prints usage and exits
1 without probe-dependent evaluation". -/
theorem c2_counterexample :
    mainModel ⟨.whenMode, some ["beta"], none, none, none, none⟩
      ⟨fun _ => none, some (strBytes "rustc 1.20.0 (abc 2017-05-05)"), .ok (some 0)⟩
      = .finished ⟨true, false, none, 0⟩ := by
  decide

/-- C2 (amended): with an empty trailing argv and successful predicate
evaluation, the probe and all matchers run first; only when the mode's
dispatch decision is positive does the process print usage and exit 1,
and when the decision is negative it exits 0 with no usage text. -/
theorem c2_empty_argv (inv : Invocation) (w : World) (info : RustCInfo) (envM versM : Bool)
    (hprobe : RustCInfo.getInfo w.rustcOut = .ok info)
    (henv : matchesAnyEnvVars w.env inv.envEquals = .ok envM)
    (hvers : info.matchesAnyVersions inv.versions = .ok versM)
    (hext : inv.external = none) :
    mainModel inv w =
      .finished ⟨true, dispatchDecision inv.mode (conditionsMatch inv w info envM versM),
        none,
        if dispatchDecision inv.mode (conditionsMatch inv w info envM versM) then 1 else 0⟩ := by
  simp only [mainModel, hprobe, henv, hvers]
  rcases hd : dispatchDecision inv.mode (conditionsMatch inv w info envM versM) with _ | _
  · simp [hd, runCommand]
  · simp [hd, hext]

/-- C2 witness: empty trailing argv in negated mode with a non-matching
channel gives a positive dispatch decision, hence usage text and exit 1
(after the probe ran). -/
theorem c2_witness :
    mainModel ⟨.unlessMode, some ["beta"], none, none, none, none⟩
      ⟨fun _ => none, some (strBytes "rustc 1.20.0 (abc 2017-05-05)"), .ok (some 0)⟩
      = .finished ⟨true, true, none, 1⟩ := by
  rw [c2_empty_argv _ _ ⟨"stable", ⟨1, 20, 0, [], []⟩⟩ true true
    (by rfl) (by rfl) (by rfl) rfl]
  decide

/-- C4 counterexample: non-UTF8 probe output is not fatal.  An invalid byte
`0xFF` in the output is lossily replaced with U+FFFD, and the probe
succeeds whenever the second whitespace-separated token still parses. -/
theorem c4_counterexample :
    utf8Valid (strBytes "rustc 1.20.0 " ++ [0xFF]) = false ∧
    RustCInfo.getInfo (some (strBytes "rustc 1.20.0 " ++ [0xFF]))
      = .ok ⟨"stable", ⟨1, 20, 0, [], []⟩⟩ :=
  ⟨by decide, rfl⟩

/-- C4 (amended): a spawn failure, a missing second whitespace-separated
token (which covers empty output), and an unparsable second token are each
fatal; non-UTF8 output, by contrast, is lossily repaired with U+FFFD
replacements before tokenization and aborts only if the resulting second
token fails to parse. -/
theorem c4_probe_failures :
    isErr (RustCInfo.getInfo none) = true ∧
    (∀ bytes, (splitWhitespace (utf8Lossy bytes)).get? 1 = none →
      isErr (RustCInfo.getInfo (some bytes)) = true) ∧
    (∀ bytes t, (splitWhitespace (utf8Lossy bytes)).get? 1 = some t →
      isErr (Version.parse t) = true →
      isErr (RustCInfo.getInfo (some bytes)) = true) := by
  refine ⟨rfl, fun bytes h => ?_, fun bytes t h hterr => ?_⟩
  · show isErr (match rustcVersionOfOutput bytes with
      | .error e => (.error e : Except String RustCInfo)
      | .ok version => .ok ⟨channelOfVersion version, stripVersion version⟩) = true
    unfold rustcVersionOfOutput
    rw [h]
    exact rfl
  · show isErr (match rustcVersionOfOutput bytes with
      | .error e => (.error e : Except String RustCInfo)
      | .ok version => .ok ⟨channelOfVersion version, stripVersion version⟩) = true
    unfold rustcVersionOfOutput
    rw [h]
    rcases hp : Version.parse t with e | v
    · simp only [hp]
      exact rfl
    · rw [hp] at hterr
      exact absurd hterr (by simp [isErr])

/-- C4 witness: a single-token output, an empty output, and an output whose
second token is not a version are each fatal. -/
theorem c4_witness :
    isErr (RustCInfo.getInfo (some (strBytes "rustc"))) = true ∧
    isErr (RustCInfo.getInfo (some ([] : List Nat))) = true ∧
    isErr (RustCInfo.getInfo (some (strBytes "rustc abc (xyz)"))) = true :=
  ⟨c4_probe_failures.2.1 (strBytes "rustc") (by rfl),
    c4_probe_failures.2.1 [] (by rfl),
    c4_probe_failures.2.2 (strBytes "rustc abc (xyz)") "abc" (by rfl) (by rfl)⟩

/-- C5: for identical predicate options, probe result and environment
snapshot, the affirmative mode's spawn decision is exactly the conjunction
of the four matcher results, and the negated mode's spawn decision is its
exact logical complement. -/
theorem c5_unless_negates_when (chans vers exs eqs : Option (List String))
    (ext : String × List String) (w : World) (info : RustCInfo) (envM versM : Bool)
    (hprobe : RustCInfo.getInfo w.rustcOut = .ok info)
    (henv : matchesAnyEnvVars w.env eqs = .ok envM)
    (hvers : info.matchesAnyVersions vers = .ok versM) :
    (mainModel ⟨.whenMode, chans, vers, exs, eqs, some ext⟩ w).spawns
      = conditionsMatch ⟨.whenMode, chans, vers, exs, eqs, some ext⟩ w info envM versM ∧
    (mainModel ⟨.unlessMode, chans, vers, exs, eqs, some ext⟩ w).spawns
      = !(mainModel ⟨.whenMode, chans, vers, exs, eqs, some ext⟩ w).spawns := by
  obtain ⟨extCmd, extArgs⟩ := ext
  simp only [mainModel, hprobe, henv, hvers, dispatchDecision, conditionsMatch]
  rcases hb : info.matchesAnyChannels chans && versM && anyEnvVarsExist w.env exs && envM
      with _ | _
  · simp [ProcResult.spawns, runCommand_none, runCommand_some_fst]
  · simp [ProcResult.spawns, runCommand_none, runCommand_some_fst]

/-- C5 witness: a matching channel predicate on a stable probe; the
affirmative mode spawns and the negated mode does not. -/
theorem c5_witness :
    (mainModel ⟨.whenMode, some ["stable"], none, none, none, some ("build", [])⟩
        ⟨fun _ => none, some (strBytes "rustc 1.20.0 (abc 2017-05-05)"), .ok (some 0)⟩).spawns
      = conditionsMatch
          ⟨.whenMode, some ["stable"], none, none, none, some ("build", [])⟩
          ⟨fun _ => none, some (strBytes "rustc 1.20.0 (abc 2017-05-05)"), .ok (some 0)⟩
          ⟨"stable", ⟨1, 20, 0, [], []⟩⟩ true true ∧
    (mainModel ⟨.unlessMode, some ["stable"], none, none, none, some ("build", [])⟩
        ⟨fun _ => none, some (strBytes "rustc 1.20.0 (abc 2017-05-05)"), .ok (some 0)⟩).spawns
      = !(mainModel ⟨.whenMode, some ["stable"], none, none, none, some ("build", [])⟩
          ⟨fun _ => none, some (strBytes "rustc 1.20.0 (abc 2017-05-05)"), .ok (some 0)⟩).spawns :=
  c5_unless_negates_when (some ["stable"]) none none none ("build", [])
    ⟨fun _ => none, some (strBytes "rustc 1.20.0 (abc 2017-05-05)"), .ok (some 0)⟩
    ⟨"stable", ⟨1, 20, 0, [], []⟩⟩ true true (by rfl) (by rfl) (by rfl)

/-- C10: whenever the program spawns a subprocess for the wrapped command,
the spawned binary is the fixed string `cargo` and its argument vector is
the trailing argv (external subcommand name followed by its arguments); the
trailing argv is never executed as its own program. -/
theorem c10_spawns_fixed_cargo (inv : Invocation) (w : World) (o : Outcome)
    (prog : String) (args : List String)
    (hrun : mainModel inv w = .finished o)
    (hspawn : o.spawned = some (prog, args)) :
    prog = "cargo" ∧
    ∃ ext extArgs, inv.external = some (ext, extArgs) ∧ args = ext :: extArgs := by
  simp only [mainModel] at hrun
  split at hrun
  · exact absurd hrun (by simp)
  · split at hrun
    · have ho := ProcResult.finished.inj hrun
      subst ho
      simp at hspawn
    · split at hrun
      · have ho := ProcResult.finished.inj hrun
        subst ho
        simp at hspawn
      · split at hrun
        · split at hrun
          · have ho := ProcResult.finished.inj hrun
            subst ho
            simp at hspawn
          · rename_i ext extArgs heq
            have ho := ProcResult.finished.inj hrun
            subst ho
            rw [runCommand_some_fst] at hspawn
            simp only [Option.some.injEq, Prod.mk.injEq] at hspawn
            exact ⟨hspawn.1.symm, ext, extArgs, heq, hspawn.2.symm⟩
        · have ho := ProcResult.finished.inj hrun
          subst ho
          simp [runCommand_none] at hspawn

/-- C10 witness: a concrete dispatched run spawning `cargo build --release`
for trailing argv `build --release`. -/
theorem c10_witness :
    ("cargo" : String) = "cargo" ∧
    ∃ ext extArgs,
      (⟨.whenMode, some ["stable"], none, none, none, some ("build", ["--release"])⟩ :
          Invocation).external = some (ext, extArgs) ∧
      ["build", "--release"] = ext :: extArgs :=
  c10_spawns_fixed_cargo
    ⟨.whenMode, some ["stable"], none, none, none, some ("build", ["--release"])⟩
    ⟨fun _ => none, some (strBytes "rustc 1.20.0 (abc 2017-05-05)"), .ok (some 3)⟩
    ⟨true, false, some ("cargo", ["build", "--release"]), 3⟩
    "cargo" ["build", "--release"] (by decide) rfl

end CargoWhen
